import Mathlib

/-!
# MCP Wolfram server: protocol dispatcher

A shallow embedding of `internal/mcp/protocol.go`, `internal/mcp/wolfram.go`,
`internal/mcp/server.go` and the transport choice of `internal/cmd/mcp.go`.

Modelling conventions.

* A Go `interface{}` is a `Value`; the nil interface is `Value.nil`.
* A Go `map[string]interface{}` is an association list; `m[key]` reads the first
  binding of `key` and yields the zero value (the nil interface) when there is none.
  A map literal is listed in the order of the source text.
* A Go `error` is represented by its text (`err.Error()`); `(x, nil)` is `Except.ok x`
  and `(nil, err)` is `Except.error err`.
* A Go `string` is a Lean `String`, that is, valid UTF-8; a Go `int` is an `Int`.
* `log.Printf` output is not part of the model.
* The outbound HTTP GET is a function carried by the client; every call of
  `WolframAlphaClient.Query` made by the dispatcher is recorded in `Outcome.queried`.
-/

set_option linter.dupNamespace false

namespace MCP

/-! ## Data model -/

/-- Dynamic Go values held in an `interface{}`: what `encoding/json` decodes into
(`nil`, `bool`, `float64`, `string`, `[]interface{}`, `map[string]interface{}`) and the
typed containers the handlers build (`map[string]bool`, `[]map[string]interface{}`,
`[]string`). -/
inductive Value where
  | nil
  | bool (b : Bool)
  | number (x : Float)
  | string (s : String)
  | slice (xs : List Value)
  | map (m : List (String × Value))
  | boolMap (m : List (String × Bool))
  | mapSlice (xs : List (List (String × Value)))
  | stringSlice (xs : List String)

/-- Go `m[key]` on a `map[string]interface{}`. -/
def index (m : List (String × Value)) (key : String) : Value :=
  match m.lookup key with
  | some v => v
  | none => Value.nil

/-- Go `m[key]` on a possibly nil `map[string]interface{}` (`none` is the nil map). -/
def indexParams (m : Option (List (String × Value))) (key : String) : Value :=
  match m with
  | some kvs => index kvs key
  | none => Value.nil

/-- Go `v.(string)` in its comma-ok form. -/
def Value.assertString : Value → Option String
  | Value.string s => some s
  | _ => none

/-- Go `v.(map[string]interface{})` in its comma-ok form. -/
def Value.assertMap : Value → Option (List (String × Value))
  | Value.map m => some m
  | _ => none

/-- Request represents an MCP request. -/
structure Request where
  Method : String
  Params : Option (List (String × Value))
  ID : Value

/-- Error represents an MCP error. -/
structure Error where
  Code : Int
  Message : String
  deriving DecidableEq

/-- Response represents an MCP response. -/
structure Response where
  Result : Value
  Error : Option MCP.Error
  ID : Value

/-- Image represents an image in a subpod. -/
structure Image where
  Src : String
  Alt : String
  Title : String
  Width : Int
  Height : Int

/-- Subpod represents content within a pod. -/
structure Subpod where
  Title : String
  Plaintext : String
  Image : MCP.Image

/-- Pod represents a section in the Wolfram Alpha response. -/
structure Pod where
  Title : String
  Scanner : String
  Error : Bool
  Subpods : List Subpod
  Position : Int

/-- The anonymous struct held in the `QueryResult` field of `QueryResult`. -/
structure QueryResultBody where
  Success : Bool
  Error : Bool
  Numpods : Int
  Pods : List Pod

/-- QueryResult represents a result from Wolfram Alpha. -/
structure QueryResult where
  QueryResult : QueryResultBody

/-- What `httpClient.Get` hands back when the transport did not fail: the status code,
the body as `io.ReadAll` yields it, and what
`json.NewDecoder(resp.Body).Decode(&result)` yields on that body. -/
structure HTTPResponse where
  StatusCode : Int
  Body : String
  Decode : Except String QueryResult

/-- WolframAlphaClient wraps the Wolfram Alpha API; `httpClient` is the behaviour of
`httpClient.Get` on a URL. -/
structure WolframAlphaClient where
  apiKey : String
  baseURL : String
  httpClient : String → Except String HTTPResponse

/-- ServerConfig holds the configuration for an MCP server. -/
structure ServerConfig where
  Name : String
  Type_ : String
  MCPPort : String
  DBHost : String
  DBPort : String
  DBUser : String
  DBPassword : String
  DBName : String
  DBSchema : String
  SSHEnabled : Bool

/-- Server represents an MCP server (the database handle and the context are not
read by the dispatcher and are left out). -/
structure Server where
  Config : ServerConfig

/-- Protocol implements the Model Context Protocol; `none` is the nil client. -/
structure Protocol where
  server : Server
  wolframClient : Option WolframAlphaClient

/-- A Response together with the inputs given to `WolframAlphaClient.Query` while it
was computed, in call order. -/
structure Outcome where
  response : Response
  queried : List String

/-! ## wolfram.go -/

/-- The digit of `n % 16` in `"0123456789ABCDEF"`. -/
def upperhex (n : Nat) : Char :=
  "0123456789ABCDEF".toList.getD (n % 16) '0'

/-- Go `url.QueryEscape` on one byte: unreserved bytes stay, a space becomes `+`,
every other byte becomes `%XX`. -/
def escapeByte (b : UInt8) : List Char :=
  let c := Char.ofNat b.toNat
  if c.isAlphanum || c == '-' || c == '_' || c == '.' || c == '~' then [c]
  else if c == ' ' then ['+']
  else ['%', upperhex (b.toNat / 16), upperhex b.toNat]

/-- Go `url.QueryEscape`. -/
def QueryEscape (s : String) : String :=
  String.mk ((s.toList.flatMap String.utf8EncodeChar).flatMap escapeByte)

/-- NewWolframAlphaClient creates a new Wolfram Alpha client; `getenv` is `os.Getenv`
and `net` the behaviour of the fresh `http.Client`. -/
def NewWolframAlphaClient (getenv : String → String)
    (net : String → Except String HTTPResponse) (apiKey : String) : WolframAlphaClient :=
  let apiKey := if apiKey == "" then getenv "WOLFRAM_API_KEY" else apiKey
  ⟨apiKey, "https://www.wolframalpha.com/api/v1", net⟩

/-- Query executes a query against Wolfram Alpha. The URL parameters are encoded as
`url.Values.Encode` does, keys in sorted order. -/
def WolframAlphaClient.Query (w : WolframAlphaClient) (input : String) :
    Except String QueryResult :=
  if w.apiKey == "" then
    Except.error "WOLFRAM_API_KEY environment variable not set"
  else
    let params := "appid=" ++ QueryEscape w.apiKey ++ "&input=" ++ QueryEscape input
      ++ "&output=" ++ QueryEscape "json"
    let fullURL := w.baseURL ++ "/query?" ++ params
    match w.httpClient fullURL with
    | Except.error err => Except.error ("failed to query Wolfram Alpha: " ++ err)
    | Except.ok resp =>
      if resp.StatusCode != 200 then
        Except.error ("Wolfram Alpha API error: status " ++ toString resp.StatusCode
          ++ ", " ++ resp.Body)
      else
        match resp.Decode with
        | Except.error err =>
          Except.error ("failed to parse Wolfram Alpha response: " ++ err)
        | Except.ok result => Except.ok result

/-- The lines one subpod adds to the output of `FormatResultAsText`. -/
def formatSubpod (output : String) (subpod : Subpod) : String :=
  let output := if subpod.Plaintext != "" then output ++ (subpod.Plaintext ++ "\n") else output
  if subpod.Image.Src != "" then output ++ ("[Image: " ++ subpod.Image.Src ++ "]\n") else output

/-- The body of the loop over pods in `FormatResultAsText`. -/
def formatPod (output : String) (pod : Pod) : String :=
  let output := output ++ ("=== " ++ pod.Title ++ " ===\n")
  let output := pod.Subpods.foldl formatSubpod output
  output ++ "\n"

/-- FormatResultAsText converts a Wolfram Alpha result to readable text. -/
def FormatResultAsText (result : QueryResult) : String :=
  if !result.QueryResult.Success then
    if result.QueryResult.Error then
      "Error: Wolfram Alpha could not process this query"
    else
      "No results found"
  else
    let output := ""
    let output := output ++ ("Wolfram Alpha Result (" ++ toString result.QueryResult.Numpods
      ++ " sections):\n\n")
    result.QueryResult.Pods.foldl formatPod output

/-! ## protocol.go -/

/-- NewProtocol creates a new MCP protocol handler. -/
def NewProtocol (getenv : String → String) (net : String → Except String HTTPResponse)
    (server : Server) : Protocol :=
  let apiKey := getenv "WOLFRAM_API_KEY"
  if apiKey != "" then
    ⟨server, some (NewWolframAlphaClient getenv net apiKey)⟩
  else
    ⟨server, none⟩

/-- The Response `handleInitialize` returns. -/
def Protocol.handleInitialize (_p : Protocol) (req : Request) : Response :=
  ⟨Value.map [
      ("protocolVersion", Value.string "2024-11-05"),
      ("capabilities", Value.boolMap [("tools", true)]),
      ("serverInfo", Value.map [
        ("name", Value.string "MCP Wolfram Server"),
        ("version", Value.string "1.0.0")])],
    none, req.ID⟩

/-- The Response `handleInitialized` returns. -/
def Protocol.handleInitialized (_p : Protocol) (req : Request) : Response :=
  ⟨Value.nil, none, req.ID⟩

/-- The Response `handleResourcesList` returns. -/
def Protocol.handleResourcesList (_p : Protocol) (req : Request) : Response :=
  ⟨Value.map [("resources", Value.mapSlice [])], none, req.ID⟩

/-- The Response `handleResourcesRead` returns. -/
def Protocol.handleResourcesRead (_p : Protocol) (req : Request) : Response :=
  ⟨Value.map [("contents", Value.mapSlice [])], none, req.ID⟩

/-- The Response `handleToolsList` returns. -/
def Protocol.handleToolsList (_p : Protocol) (req : Request) : Response :=
  let tools : List (List (String × Value)) := [
    [ ("name", Value.string "query_wolfram"),
      ("description", Value.string ("Query Wolfram Alpha for mathematical, scientific, and computational answers. " ++
        "Supports math calculations, symbolic operations, scientific data, unit conversions, and natural language questions.")),
      ("inputSchema", Value.map [
        ("type", Value.string "object"),
        ("properties", Value.map [
          ("query", Value.map [
            ("type", Value.string "string"),
            ("description", Value.string "The query to send to Wolfram Alpha")])]),
        ("required", Value.stringSlice ["query"])]) ] ]
  ⟨Value.map [("tools", Value.mapSlice tools)], none, req.ID⟩

/-- The tool-call handler `handleToolsCall`, with the calls of `Query` it makes. -/
def Protocol.handleToolsCall (p : Protocol) (req : Request) : Outcome :=
  match (indexParams req.Params "name").assertString with
  | none =>
    ⟨⟨Value.nil, some ⟨-32602, "Invalid parameters: name is required"⟩, req.ID⟩, []⟩
  | some toolName =>
    match (indexParams req.Params "arguments").assertMap with
    | none =>
      ⟨⟨Value.nil, some ⟨-32602, "Invalid parameters: arguments is required"⟩, req.ID⟩, []⟩
    | some arguments =>
      match toolName with
      | "query_wolfram" =>
        match (index arguments "query").assertString with
        | none =>
          ⟨⟨Value.nil, some ⟨-32602, "Invalid arguments: query is required"⟩, req.ID⟩, []⟩
        | some query =>
          match p.wolframClient with
          | none =>
            ⟨⟨Value.nil, some ⟨-32603, "Wolfram Alpha API key not configured"⟩, req.ID⟩, []⟩
          | some client =>
            match client.Query query with
            | Except.error err =>
              ⟨⟨Value.nil, some ⟨-32603, "Wolfram query failed: " ++ err⟩, req.ID⟩, [query]⟩
            | Except.ok result =>
              let resultText := FormatResultAsText result
              ⟨⟨Value.map [
                  ("content", Value.mapSlice [
                    [ ("type", Value.string "text"),
                      ("text", Value.string resultText) ] ])],
                none, req.ID⟩, [query]⟩
      | _ =>
        ⟨⟨Value.nil, some ⟨-32601, "Tool not found: " ++ toolName⟩, req.ID⟩, []⟩

/-- The Response `handlePing` returns. -/
def Protocol.handlePing (_p : Protocol) (req : Request) : Response :=
  ⟨Value.map [("pong", Value.bool true)], none, req.ID⟩

/-- The Response `handleServerInfo` returns. -/
def Protocol.handleServerInfo (_p : Protocol) (req : Request) : Response :=
  ⟨Value.map [
      ("name", Value.string "MCP Wolfram Server"),
      ("version", Value.string "1.0.0"),
      ("type", Value.string "wolfram")],
    none, req.ID⟩

/-- Handle processes an MCP request. -/
def Protocol.Handle (p : Protocol) (req : Request) : Outcome :=
  match req.Method with
  | "initialize" => ⟨p.handleInitialize req, []⟩
  | "initialized" => ⟨p.handleInitialized req, []⟩
  | "resources/list" => ⟨p.handleResourcesList req, []⟩
  | "resources/read" => ⟨p.handleResourcesRead req, []⟩
  | "tools/list" => ⟨p.handleToolsList req, []⟩
  | "tools/call" => p.handleToolsCall req
  | "ping" => ⟨p.handlePing req, []⟩
  | "server_info" => ⟨p.handleServerInfo req, []⟩
  | _ => ⟨⟨Value.nil, some ⟨-32601, "Method not found"⟩, req.ID⟩, []⟩

/-! ## protocol.go: the transports

The standard library is taken as given: the `bufio.Scanner` over the reader is the list
of lines its `Text` yields and its final `Err`; `json.Unmarshal` and
`json.Decoder.Decode` into a fresh `Request` are functions from the text to a Request
or an error. What a transport writes is the list of Responses it hands to
`Encoder.Encode`; a failed `Encode` is only logged by the code. -/

/-- Go `unicode.IsSpace`. -/
def isSpace (c : Char) : Bool :=
  let n := c.toNat
  (9 ≤ n && n ≤ 13) || n == 32 || n == 0x85 || n == 0xA0 || n == 0x1680 ||
    (0x2000 ≤ n && n ≤ 0x200A) || n == 0x2028 || n == 0x2029 || n == 0x202F ||
    n == 0x205F || n == 0x3000

/-- Go `strings.TrimSpace`. -/
def TrimSpace (s : String) : String :=
  String.mk ((s.toList.dropWhile isSpace).reverse.dropWhile isSpace).reverse

/-- The behaviour of the `bufio.Scanner` over the reader: the lines successive calls of
`Text` yield, and what `Err` reports once `Scan` has returned false (`none` at the end
of the input). -/
structure Scanner where
  lines : List String
  err : Option String

/-- The loop of `ServeStdio` over the scanned lines: the Responses encoded, in order. -/
def serveLines (p : Protocol) (Unmarshal : String → Except String Request) :
    List String → List Response
  | [] => []
  | line :: rest =>
    if TrimSpace line == "" then
      serveLines p Unmarshal rest
    else
      match Unmarshal line with
      | Except.error _ => serveLines p Unmarshal rest
      | Except.ok req => (p.Handle req).response :: serveLines p Unmarshal rest

/-- ServeStdio handles stdio-based MCP communication: the Responses encoded to the
writer and the error returned. -/
def Protocol.ServeStdio (p : Protocol) (Unmarshal : String → Except String Request)
    (scanner : Scanner) : List Response × Option String :=
  (serveLines p Unmarshal scanner.lines, scanner.err)

/-- The part of an inbound `http.Request` the handler reads. -/
structure HTTPRequest where
  Method : String
  Body : String

/-- What the handler leaves on the `http.ResponseWriter`: the status, the
`Content-Type` header if the handler set one, the Response encoded as the body if any,
and the Requests it handed to `Handle`. -/
structure HTTPReply where
  status : Nat
  contentType : Option String
  body : Option Response
  handled : List Request

/-- The handler `ServeHTTP` installs on "/" (listening itself is not modelled). -/
def Protocol.ServeHTTP (p : Protocol) (Decode : String → Except String Request)
    (r : HTTPRequest) : HTTPReply :=
  if r.Method != "POST" then
    ⟨405, none, none, []⟩
  else
    match Decode r.Body with
    | Except.error _ =>
      ⟨400, none, some ⟨Value.nil, some ⟨-32700, "Parse error"⟩, Value.nil⟩, []⟩
    | Except.ok req =>
      ⟨200, some "application/json", some (p.Handle req).response, [req]⟩

/-! ## server.go and cmd/mcp.go -/

/-- The function `getEnv`: an environment variable with fallback support; `getenv` is
`os.Getenv`. -/
def getEnv (getenv : String → String) : List String → String
  | [] => ""
  | key :: keys => if getenv key != "" then getenv key else getEnv getenv keys

/-- NewWolframServer creates a new MCP server for Wolfram Alpha. -/
def NewWolframServer (getenv : String → String) (config : ServerConfig) :
    Except String Server :=
  let port := if config.MCPPort == "" then getEnv getenv ["MCP_WOLFRAM_PORT", "MCP_PORT"]
    else config.MCPPort
  Except.ok ⟨⟨config.Name, config.Type_, port, config.DBHost, config.DBPort, config.DBUser,
    config.DBPassword, config.DBName, config.DBSchema, config.SSHEnabled⟩⟩

/-- The transport `runMCPWolfram` serves on. -/
inductive Transport where
  | http (port : String)
  | stdio
  deriving DecidableEq

/-- The transport choice of `runMCPWolfram`: the transport the command starts serving
on, or the error of the server construction. -/
def runMCPWolfram (getenv : String → String) : Except String Transport :=
  let config : ServerConfig := ⟨"mcp-wolfram-server", "wolfram", "", "", "", "", "", "", "", false⟩
  match NewWolframServer getenv config with
  | Except.error err => Except.error ("failed to create MCP Wolfram server: " ++ err)
  | Except.ok server =>
    if server.Config.MCPPort != "" then
      Except.ok (Transport.http server.Config.MCPPort)
    else
      Except.ok Transport.stdio

/-! ## The JSON form of a Response

`encoding/json` is modelled at the level of JSON documents: `json.Marshal` yields the
document whose text it writes, or fails; `json.Unmarshal` reads the document its input
denotes. Error texts are abbreviated. A Go map decoded from an object is listed by
ascending key. Two kinds of Go value are not values of the model: a string that is not
valid UTF-8 (`json.Marshal` rewrites its invalid bytes to U+FFFD) and a nil pointer, map
or slice held in an interface (`json.Marshal` writes it as `null`). -/

/-- A JSON document. A number literal is kept by its two readings: the float64 it
denotes and, when it has integer form, the integer it denotes. -/
inductive JSON where
  | null
  | bool (b : Bool)
  | number (x : Float) (int : Option Int)
  | string (s : String)
  | array (items : List JSON)
  | object (members : List (String × JSON))

/-- Lexicographic order on lists of code points. -/
def ltCodes : List Nat → List Nat → Bool
  | _, [] => false
  | [], _ :: _ => true
  | a :: as, b :: bs => a < b || (a == b && ltCodes as bs)

/-- The order in which `json.Marshal` writes map keys: ascending by bytes, which for
UTF-8 is ascending by code points. -/
def keyLt (a b : String) : Bool :=
  ltCodes (a.toList.map Char.toNat) (b.toList.map Char.toNat)

/-- Keys in strictly ascending order. -/
def sortedKeys (keys : List String) : Prop :=
  keys.Pairwise fun a b => keyLt a b = true

/-- Sets `key` to `v` in a list of members kept in ascending key order. -/
def insertMember {α : Type} (key : String) (v : α) : List (String × α) → List (String × α)
  | [] => [(key, v)]
  | (k, w) :: rest =>
    if keyLt key k then (key, v) :: (k, w) :: rest
    else if key = k then (key, v) :: rest
    else (k, w) :: insertMember key v rest

/-- The members `json.Marshal` writes for a Go map: one per key, in ascending key
order; of several bindings of a key in the association list the first is the map's. -/
def sortedMembers {α : Type} (kvs : List (String × α)) : List (String × α) :=
  kvs.foldr (fun kv acc => insertMember kv.1 kv.2 acc) []

/-- The Go map `json.Unmarshal` builds from the members of an object: a later member
replaces an earlier one of the same key. -/
def lastWins {α : Type} (members : List (String × α)) : List (String × α) :=
  members.foldl (fun acc kv => insertMember kv.1 kv.2 acc) []

/-- The integer a float64 is written as by `json.Marshal`, when its literal has integer
form: the value is integral and below 1e21 in absolute value. -/
def intLiteral (x : Float) : Option Int :=
  match x.toRatParts with
  | none => none
  | some (v, e) =>
    if 0 ≤ e then
      if (v * 2 ^ e.toNat).natAbs < 10 ^ 21 then some (v * 2 ^ e.toNat) else none
    else if v % 2 ^ (-e).toNat = 0 ∧ (v / 2 ^ (-e).toNat).natAbs < 10 ^ 21 then
      some (v / 2 ^ (-e).toNat)
    else none

mutual
/-- The document `json.Marshal` writes for a dynamic value; it fails on a float64 that
is NaN or infinite. -/
def Value.toJSON : Value → Except String JSON
  | Value.nil => Except.ok JSON.null
  | Value.bool b => Except.ok (JSON.bool b)
  | Value.number x =>
    if x.isFinite then Except.ok (JSON.number x (intLiteral x))
    else Except.error "json: unsupported value"
  | Value.string s => Except.ok (JSON.string s)
  | Value.slice xs =>
    match toJSONList xs with
    | Except.ok items => Except.ok (JSON.array items)
    | Except.error err => Except.error err
  | Value.map m =>
    match toJSONMembers [] m with
    | Except.ok members => Except.ok (JSON.object (sortedMembers members))
    | Except.error err => Except.error err
  | Value.boolMap m =>
    Except.ok (JSON.object (sortedMembers (m.map fun kv => (kv.1, JSON.bool kv.2))))
  | Value.mapSlice xs =>
    match toJSONMaps xs with
    | Except.ok items => Except.ok (JSON.array items)
    | Except.error err => Except.error err
  | Value.stringSlice xs => Except.ok (JSON.array (xs.map JSON.string))
/-- The documents of the elements of a `[]interface{}`. -/
def toJSONList : List Value → Except String (List JSON)
  | [] => Except.ok []
  | v :: vs =>
    match v.toJSON with
    | Except.error err => Except.error err
    | Except.ok item =>
      match toJSONList vs with
      | Except.ok items => Except.ok (item :: items)
      | Except.error err => Except.error err
/-- The documents of the bindings of a `map[string]interface{}`; a binding whose key is
among `seen`, the keys bound earlier in the association list, is not part of the map. -/
def toJSONMembers (seen : List String) :
    List (String × Value) → Except String (List (String × JSON))
  | [] => Except.ok []
  | (k, v) :: rest =>
    if k ∈ seen then toJSONMembers seen rest
    else
      match v.toJSON with
      | Except.error err => Except.error err
      | Except.ok item =>
        match toJSONMembers (k :: seen) rest with
        | Except.ok members => Except.ok ((k, item) :: members)
        | Except.error err => Except.error err
/-- The documents of the elements of a `[]map[string]interface{}`. -/
def toJSONMaps : List (List (String × Value)) → Except String (List JSON)
  | [] => Except.ok []
  | m :: ms =>
    match toJSONMembers [] m with
    | Except.error err => Except.error err
    | Except.ok members =>
      match toJSONMaps ms with
      | Except.ok items => Except.ok (JSON.object (sortedMembers members) :: items)
      | Except.error err => Except.error err
end

mutual
/-- The value `json.Unmarshal` stores into an `interface{}`. -/
def JSON.toValue : JSON → Value
  | JSON.null => Value.nil
  | JSON.bool b => Value.bool b
  | JSON.number x _ => Value.number x
  | JSON.string s => Value.string s
  | JSON.array items => Value.slice (toValueList items)
  | JSON.object members => Value.map (lastWins (toValueMembers members))
/-- The values of the items of an array. -/
def toValueList : List JSON → List Value
  | [] => []
  | j :: js => j.toValue :: toValueList js
/-- The values of the members of an object. -/
def toValueMembers : List (String × JSON) → List (String × Value)
  | [] => []
  | (k, j) :: rest => (k, j.toValue) :: toValueMembers rest
end

/-- The fold of one rune as far as names over ASCII letters are concerned: a lower-case
ASCII letter, the long s and the Kelvin sign go to their upper-case ASCII letter. -/
def foldRune (c : Char) : Char :=
  if 97 ≤ c.toNat ∧ c.toNat ≤ 122 then Char.ofNat (c.toNat - 32)
  else if c.toNat = 0x17F then Char.ofNat 83
  else if c.toNat = 0x212A then Char.ofNat 75
  else c

/-- The folded name under which `encoding/json` looks a key up when no field has its
exact name. -/
def foldName (s : String) : String :=
  String.mk (s.toList.map foldRune)

/-- The struct field a key of an object is stored into: the field of that exact name,
else the first field whose name equals the key under case folding, else none. -/
def fieldOf (fields : List String) (key : String) : Option String :=
  if key ∈ fields then some key
  else fields.find? fun f => foldName f == foldName key

/-- A JSON value stored into an `int` field that holds `current`. -/
def decodeInt (current : Int) : JSON → Except String Int
  | JSON.null => Except.ok current
  | JSON.number _ (some i) =>
    if -(2 : Int) ^ 63 ≤ i ∧ i < (2 : Int) ^ 63 then Except.ok i
    else Except.error "json: cannot unmarshal number into Go value of type int"
  | _ => Except.error "json: cannot unmarshal into Go value of type int"

/-- A JSON value stored into a `string` field that holds `current`. -/
def decodeString (current : String) : JSON → Except String String
  | JSON.null => Except.ok current
  | JSON.string s => Except.ok s
  | _ => Except.error "json: cannot unmarshal into Go value of type string"

/-- The members of an object stored into an `Error`, in order. -/
def decodeErrorMembers : List (String × JSON) → Error → Except String Error
  | [], e => Except.ok e
  | (key, j) :: rest, e =>
    match fieldOf ["code", "message"] key with
    | some "code" =>
      match decodeInt e.Code j with
      | Except.ok code => decodeErrorMembers rest ⟨code, e.Message⟩
      | Except.error err => Except.error err
    | some "message" =>
      match decodeString e.Message j with
      | Except.ok message => decodeErrorMembers rest ⟨e.Code, message⟩
      | Except.error err => Except.error err
    | _ => decodeErrorMembers rest e

/-- A JSON value stored into an `*Error` field that holds `current`. -/
def decodeErrorField (current : Option Error) : JSON → Except String (Option Error)
  | JSON.null => Except.ok none
  | JSON.object members =>
    match decodeErrorMembers members (current.getD ⟨0, ""⟩) with
    | Except.ok e => Except.ok (some e)
    | Except.error err => Except.error err
  | _ => Except.error "json: cannot unmarshal into Go value of type mcp.Error"

/-- The members of an object stored into a `Response`, in order. -/
def decodeResponseMembers : List (String × JSON) → Response → Except String Response
  | [], r => Except.ok r
  | (key, j) :: rest, r =>
    match fieldOf ["result", "error", "id"] key with
    | some "result" => decodeResponseMembers rest ⟨j.toValue, r.Error, r.ID⟩
    | some "error" =>
      match decodeErrorField r.Error j with
      | Except.ok e => decodeResponseMembers rest ⟨r.Result, e, r.ID⟩
      | Except.error err => Except.error err
    | some "id" => decodeResponseMembers rest ⟨r.Result, r.Error, j.toValue⟩
    | _ => decodeResponseMembers rest r

/-- Go `json.Unmarshal` of a document into a fresh `Response`. -/
def decodeResponse : JSON → Except String Response
  | JSON.null => Except.ok ⟨Value.nil, none, Value.nil⟩
  | JSON.object members => decodeResponseMembers members ⟨Value.nil, none, Value.nil⟩
  | _ => Except.error "json: cannot unmarshal into Go value of type mcp.Response"

/-- The member `json.Marshal` writes for an `interface{}` field tagged `omitempty`:
none when the field is the nil interface, else the document of the value it holds. -/
def omitempty (name : String) : Value → Except String (List (String × JSON))
  | Value.nil => Except.ok []
  | v =>
    match v.toJSON with
    | Except.ok j => Except.ok [(name, j)]
    | Except.error err => Except.error err

/-- Go `json.Marshal` of a `Response`: the fields in declaration order, `result`, `error`
and `id` each left out when nil (`omitempty` on an interface or a pointer); it fails
when the result or the id holds a value `json.Marshal` does not support. -/
def encodeResponse (r : Response) : Except String JSON :=
  let error : List (String × JSON) := match r.Error with
    | none => []
    | some e => [("error", JSON.object [
        ("code", JSON.number (Float.ofInt e.Code) (some e.Code)),
        ("message", JSON.string e.Message)])]
  match omitempty "result" r.Result with
  | Except.error err => Except.error err
  | Except.ok result =>
    match omitempty "id" r.ID with
    | Except.error err => Except.error err
    | Except.ok id => Except.ok (JSON.object (result ++ error ++ id))

/-- Go `json.Unmarshal` of what `json.Marshal` wrote for a `Response`: the Response read
back, or the error of either step. -/
def roundTrip (r : Response) : Except String Response :=
  match encodeResponse r with
  | Except.ok document => decodeResponse document
  | Except.error err => Except.error err

mutual
/-- Every float64 the value holds is finite, so `json.Marshal` supports the value. -/
def Value.Supported : Value → Prop
  | Value.nil => True
  | Value.bool _ => True
  | Value.number x => x.isFinite = true
  | Value.string _ => True
  | Value.slice xs => SupportedList xs
  | Value.map m => SupportedMembers m
  | Value.boolMap _ => True
  | Value.mapSlice xs => SupportedMaps xs
  | Value.stringSlice _ => True
/-- Every element is supported. -/
def SupportedList : List Value → Prop
  | [] => True
  | v :: vs => v.Supported ∧ SupportedList vs
/-- Every bound value is supported. -/
def SupportedMembers : List (String × Value) → Prop
  | [] => True
  | (_, v) :: rest => v.Supported ∧ SupportedMembers rest
/-- Every bound value of every map is supported. -/
def SupportedMaps : List (List (String × Value)) → Prop
  | [] => True
  | m :: ms => SupportedMembers m ∧ SupportedMaps ms
end

mutual
/-- The values `json.Unmarshal` stores into an `interface{}`: nil, booleans, finite
numbers, strings, `[]interface{}` and `map[string]interface{}` of such values, a map
being listed by ascending key. -/
def Value.Decoded : Value → Prop
  | Value.nil => True
  | Value.bool _ => True
  | Value.number x => x.isFinite = true
  | Value.string _ => True
  | Value.slice xs => DecodedList xs
  | Value.map m => DecodedMembers m ∧ sortedKeys (m.map Prod.fst)
  | Value.boolMap _ => False
  | Value.mapSlice _ => False
  | Value.stringSlice _ => False
/-- Every element is a decoded value. -/
def DecodedList : List Value → Prop
  | [] => True
  | v :: vs => v.Decoded ∧ DecodedList vs
/-- Every bound value is a decoded value. -/
def DecodedMembers : List (String × Value) → Prop
  | [] => True
  | (_, v) :: rest => v.Decoded ∧ DecodedMembers rest
end

/-! ## The accepted lines, as the specification words them -/

/-- The Requests of the lines that are not blank after trimming whitespace and that
parse, in input order. -/
def acceptedRequests (Unmarshal : String → Except String Request)
    (lines : List String) : List Request :=
  lines.filterMap fun line =>
    if TrimSpace line = "" then none
    else match Unmarshal line with
      | Except.ok req => some req
      | Except.error _ => none

/-! ## The text format, as the specification words it -/

/-- Concatenation of a list of strings, in order. -/
def concat : List String → String
  | [] => ""
  | s :: rest => s ++ concat rest

/-- The header: the line stating the section count `n`, then an empty line. -/
def headerLines (n : Int) : String :=
  "Wolfram Alpha Result (" ++ toString n ++ " sections):" ++ "\n" ++ "\n"

/-- The lines of one content block: its plaintext as a line if the plaintext is not
empty, then the line `[Image: <src>]` if the image source is not empty. -/
def blockLines (b : Subpod) : String :=
  (if b.Plaintext = "" then "" else b.Plaintext ++ "\n") ++
    (if b.Image.Src = "" then "" else "[Image: " ++ b.Image.Src ++ "]" ++ "\n")

/-- The lines of one section: the banner `=== <title> ===`, the lines of its content
blocks in order, then one empty line. -/
def sectionLines (s : Pod) : String :=
  "=== " ++ s.Title ++ " ===" ++ "\n" ++ concat (s.Subpods.map blockLines) ++ "\n"

/-- The output the specification describes for a successful result: the header for
the section count the result reports, then the sections in their original order. -/
def formatSpec (r : QueryResult) : String :=
  headerLines r.QueryResult.Numpods ++ concat (r.QueryResult.Pods.map sectionLines)

/-! ## Sample dispatchers and requests -/

/-- A server value for the samples. -/
def sampleServer : Server :=
  ⟨⟨"mcp-wolfram-server", "wolfram", "", "", "", "", "", "", "", false⟩⟩

/-- A dispatcher whose query client is unset. -/
def noClient : Protocol :=
  ⟨sampleServer, none⟩

/-- A query result with `success` false and the error flag set. -/
def failedResult : QueryResult :=
  ⟨⟨false, true, 0, []⟩⟩

/-- A query result with two sections. -/
def twoPods : QueryResult :=
  ⟨⟨true, false, 2, [
    ⟨"Input", "Identity", false, [⟨"", "2+2", ⟨"", "", "", 0, 0⟩⟩], 100⟩,
    ⟨"Result", "Simplification", false, [⟨"", "4", ⟨"https://img/4.gif", "4", "4", 8, 18⟩⟩],
      200⟩]⟩⟩

/-- A dispatcher whose client cannot reach the remote service. -/
def unreachable : Protocol :=
  ⟨sampleServer, some ⟨"KEY", "https://www.wolframalpha.com/api/v1",
    fun _ => Except.error "connection refused"⟩⟩

/-- A dispatcher whose client is answered with status 200 and the given decoded body. -/
def answering (r : QueryResult) : Protocol :=
  ⟨sampleServer, some ⟨"KEY", "https://www.wolframalpha.com/api/v1",
    fun _ => Except.ok ⟨200, "", Except.ok r⟩⟩⟩

/-- A `tools/call` request for tool `name` with the given arguments and id 1. -/
def callRequest (name : String) (arguments : Value) : Request :=
  ⟨"tools/call", some [("name", Value.string name), ("arguments", arguments)],
    Value.string "1"⟩

/-- A `ping` request with a string id. -/
def pingRequest (id : String) : Request :=
  ⟨"ping", none, Value.string id⟩

/-- A sample of `json.Unmarshal`: two request lines parse, every other line fails. -/
def sampleUnmarshal (line : String) : Except String Request :=
  if line = "\x7b\"method\":\"ping\",\"id\":\"a\"\x7d" then Except.ok (pingRequest "a")
  else if line = "\x7b\"method\":\"nope\",\"id\":\"b\"\x7d" then
    Except.ok ⟨"nope", none, Value.string "b"⟩
  else Except.error "invalid character"

/-- An environment in which only `MCP_PORT` is set. -/
def onlyMCPPort (key : String) : String :=
  if key = "MCP_PORT" then "8080" else ""

/-! ## Theorems -/

/-- Under `tools/call` the dispatcher runs the tool-call handler. -/
theorem Handle_toolsCall (p : Protocol) (req : Request) (hm : req.Method = "tools/call") :
    p.Handle req = p.handleToolsCall req := by
  simp [Protocol.Handle, hm]

/-- A value that is no string fails the string assertion. -/
theorem assertString_none_of_ne (v : Value) (h : ∀ s, v ≠ Value.string s) :
    v.assertString = none := by
  cases v <;> simp_all [Value.assertString]

/-- A value that is no `map[string]interface{}` fails the map assertion. -/
theorem assertMap_none_of_ne (v : Value) (h : ∀ m, v ≠ Value.map m) :
    v.assertMap = none := by
  cases v <;> simp_all [Value.assertMap]

/-- C1: whatever the method, the params, the id, the client and the outcome of the
query, the Response of `Handle` carries the ID of the Request. -/
theorem Handle_echoes_id (p : Protocol) (req : Request) :
    (p.Handle req).response.ID = req.ID := by
  unfold Protocol.Handle
  split <;> try rfl
  unfold Protocol.handleToolsCall
  repeat (first | rfl | split)

/-- C2: a method outside the eight routed names (compared exactly, the empty method
included) gives no result, error -32601 "Method not found" and the id of the Request;
the query capability is not called. -/
theorem Handle_method_not_found (p : Protocol) (req : Request)
    (h : req.Method ∉ ["initialize", "initialized", "resources/list", "resources/read",
      "tools/list", "tools/call", "ping", "server_info"]) :
    p.Handle req = ⟨⟨Value.nil, some ⟨-32601, "Method not found"⟩, req.ID⟩, []⟩ := by
  simp only [List.mem_cons, List.mem_singleton, List.not_mem_nil, or_false, not_or] at h
  obtain ⟨h1, h2, h3, h4, h5, h6, h7, h8⟩ := h
  unfold Protocol.Handle
  split <;> first | (exfalso; contradiction) | rfl

/-- C2 at the empty method and at a method differing from a routed one in case only. -/
theorem Handle_method_not_found_witness :
    ("" ∉ ["initialize", "initialized", "resources/list", "resources/read",
      "tools/list", "tools/call", "ping", "server_info"]) ∧
    noClient.Handle ⟨"", none, Value.string "a"⟩
      = ⟨⟨Value.nil, some ⟨-32601, "Method not found"⟩, Value.string "a"⟩, []⟩ ∧
    noClient.Handle ⟨"Ping", some [], Value.bool false⟩
      = ⟨⟨Value.nil, some ⟨-32601, "Method not found"⟩, Value.bool false⟩, []⟩ :=
  ⟨by decide, Handle_method_not_found noClient ⟨"", none, Value.string "a"⟩ (by decide),
    Handle_method_not_found noClient ⟨"Ping", some [], Value.bool false⟩ (by decide)⟩

/-- C3: the six fixed methods never fail and return their fixed result, whatever the
params, the id and the dispatcher; the query capability is not called. -/
theorem Handle_fixed_methods (p : Protocol) (params : Option (List (String × Value)))
    (id : Value) :
    p.Handle ⟨"initialize", params, id⟩
      = ⟨⟨Value.map [
            ("protocolVersion", Value.string "2024-11-05"),
            ("capabilities", Value.boolMap [("tools", true)]),
            ("serverInfo", Value.map [
              ("name", Value.string "MCP Wolfram Server"),
              ("version", Value.string "1.0.0")])],
          none, id⟩, []⟩ ∧
    p.Handle ⟨"ping", params, id⟩
      = ⟨⟨Value.map [("pong", Value.bool true)], none, id⟩, []⟩ ∧
    p.Handle ⟨"server_info", params, id⟩
      = ⟨⟨Value.map [
            ("name", Value.string "MCP Wolfram Server"),
            ("version", Value.string "1.0.0"),
            ("type", Value.string "wolfram")],
          none, id⟩, []⟩ ∧
    p.Handle ⟨"resources/list", params, id⟩
      = ⟨⟨Value.map [("resources", Value.mapSlice [])], none, id⟩, []⟩ ∧
    p.Handle ⟨"resources/read", params, id⟩
      = ⟨⟨Value.map [("contents", Value.mapSlice [])], none, id⟩, []⟩ ∧
    p.Handle ⟨"tools/list", params, id⟩
      = ⟨⟨Value.map [("tools", Value.mapSlice [
            [ ("name", Value.string "query_wolfram"),
              ("description", Value.string ("Query Wolfram Alpha for mathematical, scientific, and computational answers. " ++
                "Supports math calculations, symbolic operations, scientific data, unit conversions, and natural language questions.")),
              ("inputSchema", Value.map [
                ("type", Value.string "object"),
                ("properties", Value.map [
                  ("query", Value.map [
                    ("type", Value.string "string"),
                    ("description", Value.string "The query to send to Wolfram Alpha")])]),
                ("required", Value.stringSlice ["query"])]) ] ])],
          none, id⟩, []⟩ := by
  refine ⟨?_, ?_, ?_, ?_, ?_, ?_⟩
  · simp [Protocol.Handle, Protocol.handleInitialize]
  · simp [Protocol.Handle, Protocol.handlePing]
  · simp [Protocol.Handle, Protocol.handleServerInfo]
  · simp [Protocol.Handle, Protocol.handleResourcesList]
  · simp [Protocol.Handle, Protocol.handleResourcesRead]
  · simp [Protocol.Handle, Protocol.handleToolsList]

/-- C4: a `tools/call` whose `params.name` is absent or is no string (the params
mapping may be nil) gives error -32602 "Invalid parameters: name is required",
whatever `params.arguments` holds and whatever the client; no query is made. -/
theorem toolsCall_name_required (p : Protocol) (req : Request)
    (hm : req.Method = "tools/call")
    (hn : ∀ s, indexParams req.Params "name" ≠ Value.string s) :
    p.Handle req
      = ⟨⟨Value.nil, some ⟨-32602, "Invalid parameters: name is required"⟩, req.ID⟩, []⟩ := by
  rw [Handle_toolsCall p req hm]
  unfold Protocol.handleToolsCall
  rw [assertString_none_of_ne _ hn]

/-- C5: a `tools/call` whose `params.name` is a string (any string) and whose
`params.arguments` is absent or is no mapping gives error -32602
"Invalid parameters: arguments is required"; no query is made. -/
theorem toolsCall_arguments_required (p : Protocol) (req : Request) (name : String)
    (hm : req.Method = "tools/call")
    (hn : indexParams req.Params "name" = Value.string name)
    (ha : ∀ m, indexParams req.Params "arguments" ≠ Value.map m) :
    p.Handle req
      = ⟨⟨Value.nil, some ⟨-32602, "Invalid parameters: arguments is required"⟩, req.ID⟩,
          []⟩ := by
  rw [Handle_toolsCall p req hm]
  unfold Protocol.handleToolsCall
  rw [hn, assertMap_none_of_ne _ ha]
  rfl

/-- C4 at a request without params, and at one whose name is a number while the
arguments are those of a valid call. -/
theorem toolsCall_name_required_witness :
    indexParams none "name" = Value.nil ∧
    unreachable.Handle ⟨"tools/call", none, Value.string "1"⟩
      = ⟨⟨Value.nil, some ⟨-32602, "Invalid parameters: name is required"⟩,
          Value.string "1"⟩, []⟩ ∧
    noClient.Handle ⟨"tools/call",
        some [("name", Value.slice []),
          ("arguments", Value.map [("query", Value.string "2+2")])], Value.nil⟩
      = ⟨⟨Value.nil, some ⟨-32602, "Invalid parameters: name is required"⟩,
          Value.nil⟩, []⟩ :=
  ⟨rfl,
    toolsCall_name_required unreachable ⟨"tools/call", none, Value.string "1"⟩ rfl
      (fun _ h => Value.noConfusion h),
    toolsCall_name_required noClient _ rfl (fun _ h => Value.noConfusion h)⟩

/-- C5 at a request naming an unknown tool without arguments, and at one whose
arguments are a string. -/
theorem toolsCall_arguments_required_witness :
    unreachable.Handle ⟨"tools/call", some [("name", Value.string "no_such_tool")],
        Value.string "1"⟩
      = ⟨⟨Value.nil, some ⟨-32602, "Invalid parameters: arguments is required"⟩,
          Value.string "1"⟩, []⟩ ∧
    noClient.Handle (callRequest "query_wolfram" (Value.string "2+2"))
      = ⟨⟨Value.nil, some ⟨-32602, "Invalid parameters: arguments is required"⟩,
          Value.string "1"⟩, []⟩ :=
  ⟨toolsCall_arguments_required unreachable
      ⟨"tools/call", some [("name", Value.string "no_such_tool")], Value.string "1"⟩
      "no_such_tool" rfl rfl (fun _ h => Value.noConfusion h),
    toolsCall_arguments_required noClient (callRequest "query_wolfram" (Value.string "2+2"))
      "query_wolfram" rfl rfl (fun _ h => Value.noConfusion h)⟩

/-- C6 as stated fails: with a tool name other than `query_wolfram`, arguments a
mapping and no `query` in them (the read yields the nil interface, which is no
string), the error code is -32601 and not -32602. -/
theorem toolsCall_query_required_counterexample :
    (callRequest "other_tool" (Value.map [])).Method = "tools/call" ∧
    indexParams (callRequest "other_tool" (Value.map [])).Params "name"
      = Value.string "other_tool" ∧
    indexParams (callRequest "other_tool" (Value.map [])).Params "arguments"
      = Value.map [] ∧
    index [] "query" = Value.nil ∧
    (noClient.Handle (callRequest "other_tool" (Value.map []))).response.Error
      = some ⟨-32601, "Tool not found: other_tool"⟩ ∧
    (noClient.Handle (callRequest "other_tool" (Value.map []))).response.Error.map Error.Code
      ≠ some (-32602) := by
  refine ⟨rfl, rfl, rfl, rfl, ?_, ?_⟩
  · decide
  · decide

/-- C6 amended: when the tool name is `query_wolfram`, the arguments are a mapping
and `arguments.query` is missing or is no string, the Response is error -32602
"Invalid arguments: query is required"; no query is made. -/
theorem toolsCall_query_required (p : Protocol) (req : Request)
    (arguments : List (String × Value))
    (hm : req.Method = "tools/call")
    (hn : indexParams req.Params "name" = Value.string "query_wolfram")
    (ha : indexParams req.Params "arguments" = Value.map arguments)
    (hq : ∀ s, index arguments "query" ≠ Value.string s) :
    p.Handle req
      = ⟨⟨Value.nil, some ⟨-32602, "Invalid arguments: query is required"⟩, req.ID⟩, []⟩ := by
  rw [Handle_toolsCall p req hm]
  unfold Protocol.handleToolsCall
  rw [hn, ha]
  have hnone : (index arguments "query").assertString = none := assertString_none_of_ne _ hq
  simp only [Value.assertString, Value.assertMap, hnone]

/-- C6 amended, at empty arguments and at a query that is a boolean. -/
theorem toolsCall_query_required_witness :
    unreachable.Handle (callRequest "query_wolfram" (Value.map []))
      = ⟨⟨Value.nil, some ⟨-32602, "Invalid arguments: query is required"⟩,
          Value.string "1"⟩, []⟩ ∧
    noClient.Handle (callRequest "query_wolfram" (Value.map [("query", Value.bool true)]))
      = ⟨⟨Value.nil, some ⟨-32602, "Invalid arguments: query is required"⟩,
          Value.string "1"⟩, []⟩ :=
  ⟨toolsCall_query_required unreachable (callRequest "query_wolfram" (Value.map []))
      [] rfl rfl rfl (fun _ h => Value.noConfusion h),
    toolsCall_query_required noClient
      (callRequest "query_wolfram" (Value.map [("query", Value.bool true)]))
      [("query", Value.bool true)] rfl rfl rfl (fun _ h => Value.noConfusion h)⟩

/-- C7: a `tools/call` whose name is a string other than `query_wolfram` and whose
arguments are a mapping (of any contents) gives error -32601 with message
"Tool not found: " followed by the name, for every dispatcher; no query is made. -/
theorem toolsCall_tool_not_found (p : Protocol) (req : Request) (name : String)
    (arguments : List (String × Value))
    (hm : req.Method = "tools/call")
    (hn : indexParams req.Params "name" = Value.string name)
    (hne : name ≠ "query_wolfram")
    (ha : indexParams req.Params "arguments" = Value.map arguments) :
    p.Handle req
      = ⟨⟨Value.nil, some ⟨-32601, "Tool not found: " ++ name⟩, req.ID⟩, []⟩ := by
  rw [Handle_toolsCall p req hm]
  unfold Protocol.handleToolsCall
  rw [hn, ha]
  simp only [Value.assertString, Value.assertMap]

/-- C7 at a dispatcher whose client would answer, with arguments of a valid query,
and at the empty tool name. -/
theorem toolsCall_tool_not_found_witness :
    ("Query_Wolfram" ≠ "query_wolfram") ∧
    (answering twoPods).Handle
        (callRequest "Query_Wolfram" (Value.map [("query", Value.string "2+2")]))
      = ⟨⟨Value.nil, some ⟨-32601, "Tool not found: Query_Wolfram"⟩, Value.string "1"⟩,
          []⟩ ∧
    noClient.Handle (callRequest "" (Value.map []))
      = ⟨⟨Value.nil, some ⟨-32601, "Tool not found: "⟩, Value.string "1"⟩, []⟩ :=
  ⟨by decide,
    toolsCall_tool_not_found (answering twoPods)
      (callRequest "Query_Wolfram" (Value.map [("query", Value.string "2+2")]))
      "Query_Wolfram" [("query", Value.string "2+2")] rfl rfl (by decide) rfl,
    toolsCall_tool_not_found noClient (callRequest "" (Value.map [])) "" [] rfl rfl
      (by decide) rfl⟩

/-- C8: a dispatcher whose query client is unset, as `NewProtocol` leaves it when
`WOLFRAM_API_KEY` is empty, answers every well-formed `query_wolfram` call with
error -32603 "Wolfram Alpha API key not configured"; no query is made. -/
theorem toolsCall_not_configured (getenv : String → String)
    (net : String → Except String HTTPResponse) (server : Server)
    (p : Protocol) (req : Request) (arguments : List (String × Value)) (query : String)
    (hp : p.wolframClient = none ∨
      (getenv "WOLFRAM_API_KEY" = "" ∧ p = NewProtocol getenv net server))
    (hm : req.Method = "tools/call")
    (hn : indexParams req.Params "name" = Value.string "query_wolfram")
    (ha : indexParams req.Params "arguments" = Value.map arguments)
    (hq : index arguments "query" = Value.string query) :
    p.Handle req
      = ⟨⟨Value.nil, some ⟨-32603, "Wolfram Alpha API key not configured"⟩, req.ID⟩,
          []⟩ := by
  have hnone : p.wolframClient = none := by
    rcases hp with h | ⟨hkey, rfl⟩
    · exact h
    · simp [NewProtocol, hkey]
  rw [Handle_toolsCall p req hm]
  unfold Protocol.handleToolsCall
  rw [hn, ha]
  simp only [Value.assertString, Value.assertMap, hq, hnone]

/-- C8 at the dispatcher built in an environment without any variable set. -/
theorem toolsCall_not_configured_witness :
    (NewProtocol (fun _ => "") (fun _ => Except.error "unused") sampleServer).Handle
        (callRequest "query_wolfram" (Value.map [("query", Value.string "2+2")]))
      = ⟨⟨Value.nil, some ⟨-32603, "Wolfram Alpha API key not configured"⟩,
          Value.string "1"⟩, []⟩ :=
  toolsCall_not_configured (fun _ => "") (fun _ => Except.error "unused") sampleServer
    (NewProtocol (fun _ => "") (fun _ => Except.error "unused") sampleServer)
    (callRequest "query_wolfram" (Value.map [("query", Value.string "2+2")]))
    [("query", Value.string "2+2")] "2+2" (Or.inr ⟨rfl, rfl⟩) rfl rfl rfl rfl

/-- C9: with a configured client, a well-formed `query_wolfram` call whose query
fails with error `e` gives no result and error -32603 with message
"Wolfram query failed: " followed by the text of `e`; the query is made once. -/
theorem toolsCall_query_failed (p : Protocol) (client : WolframAlphaClient)
    (req : Request) (arguments : List (String × Value)) (query e : String)
    (hp : p.wolframClient = some client)
    (hm : req.Method = "tools/call")
    (hn : indexParams req.Params "name" = Value.string "query_wolfram")
    (ha : indexParams req.Params "arguments" = Value.map arguments)
    (hq : index arguments "query" = Value.string query)
    (he : client.Query query = Except.error e) :
    p.Handle req
      = ⟨⟨Value.nil, some ⟨-32603, "Wolfram query failed: " ++ e⟩, req.ID⟩, [query]⟩ := by
  rw [Handle_toolsCall p req hm]
  unfold Protocol.handleToolsCall
  rw [hn, ha]
  simp only [Value.assertString, Value.assertMap, hq, hp, he]

/-- C9 at a client whose GET fails with "connection refused". -/
theorem toolsCall_query_failed_witness :
    unreachable.Handle
        (callRequest "query_wolfram" (Value.map [("query", Value.string "2+2")]))
      = ⟨⟨Value.nil,
          some ⟨-32603,
            "Wolfram query failed: failed to query Wolfram Alpha: connection refused"⟩,
          Value.string "1"⟩, ["2+2"]⟩ :=
  toolsCall_query_failed unreachable
    ⟨"KEY", "https://www.wolframalpha.com/api/v1", fun _ => Except.error "connection refused"⟩
    (callRequest "query_wolfram" (Value.map [("query", Value.string "2+2")]))
    [("query", Value.string "2+2")] "2+2"
    "failed to query Wolfram Alpha: connection refused" rfl rfl rfl rfl rfl rfl

/-- C10: with a configured client, a well-formed `query_wolfram` call whose query
succeeds with result `r` gives no error and a result whose `content` is the single
block of type "text" with text `FormatResultAsText r`; this is so also when `r`
reports `success` false, the text then being the error or the no-results string. -/
theorem toolsCall_query_succeeded (p : Protocol) (client : WolframAlphaClient)
    (req : Request) (arguments : List (String × Value)) (query : String) (r : QueryResult)
    (hp : p.wolframClient = some client)
    (hm : req.Method = "tools/call")
    (hn : indexParams req.Params "name" = Value.string "query_wolfram")
    (ha : indexParams req.Params "arguments" = Value.map arguments)
    (hq : index arguments "query" = Value.string query)
    (hr : client.Query query = Except.ok r) :
    p.Handle req
      = ⟨⟨Value.map [
            ("content", Value.mapSlice [
              [ ("type", Value.string "text"),
                ("text", Value.string (FormatResultAsText r)) ] ])],
          none, req.ID⟩, [query]⟩ ∧
    (r.QueryResult.Success = false →
      FormatResultAsText r
        = if r.QueryResult.Error then "Error: Wolfram Alpha could not process this query"
          else "No results found") := by
  constructor
  · rw [Handle_toolsCall p req hm]
    unfold Protocol.handleToolsCall
    rw [hn, ha]
    simp only [Value.assertString, Value.assertMap, hq, hp, hr]
  · intro hs
    simp [FormatResultAsText, hs]

/-- C10 at a result reporting `success` false with the error flag set, and at a
result with two sections. -/
theorem toolsCall_query_succeeded_witness :
    (answering failedResult).Handle
        (callRequest "query_wolfram" (Value.map [("query", Value.string "")]))
      = ⟨⟨Value.map [
            ("content", Value.mapSlice [
              [ ("type", Value.string "text"),
                ("text", Value.string "Error: Wolfram Alpha could not process this query") ] ])],
          none, Value.string "1"⟩, [""]⟩ ∧
    (answering twoPods).Handle
        (callRequest "query_wolfram" (Value.map [("query", Value.string "2+2")]))
      = ⟨⟨Value.map [
            ("content", Value.mapSlice [
              [ ("type", Value.string "text"),
                ("text", Value.string ("Wolfram Alpha Result (2 sections):\n\n" ++
                  "=== Input ===\n2+2\n\n" ++
                  "=== Result ===\n4\n[Image: https://img/4.gif]\n\n")) ] ])],
          none, Value.string "1"⟩, ["2+2"]⟩ :=
  ⟨(toolsCall_query_succeeded (answering failedResult)
      ⟨"KEY", "https://www.wolframalpha.com/api/v1",
        fun _ => Except.ok ⟨200, "", Except.ok failedResult⟩⟩
      (callRequest "query_wolfram" (Value.map [("query", Value.string "")]))
      [("query", Value.string "")] "" failedResult rfl rfl rfl rfl rfl rfl).1,
    (toolsCall_query_succeeded (answering twoPods)
      ⟨"KEY", "https://www.wolframalpha.com/api/v1",
        fun _ => Except.ok ⟨200, "", Except.ok twoPods⟩⟩
      (callRequest "query_wolfram" (Value.map [("query", Value.string "2+2")]))
      [("query", Value.string "2+2")] "2+2" twoPods rfl rfl rfl rfl rfl rfl).1⟩

/-! ### The formatter -/

/-- The loop over subpods appends the lines of each content block, in order. -/
theorem foldl_formatSubpod (subpods : List Subpod) (output : String) :
    subpods.foldl formatSubpod output = output ++ concat (subpods.map blockLines) := by
  induction subpods generalizing output with
  | nil => simp [concat]
  | cons b rest ih =>
    simp only [List.foldl_cons, List.map_cons, concat, ih]
    unfold formatSubpod blockLines
    by_cases h1 : b.Plaintext = "" <;> by_cases h2 : b.Image.Src = "" <;>
      simp [h1, h2, String.append_assoc]

/-- The body of the loop over pods appends the lines of one section. -/
theorem formatPod_eq (output : String) (pod : Pod) :
    formatPod output pod = output ++ sectionLines pod := by
  simp [formatPod, sectionLines, foldl_formatSubpod, String.append_assoc]

/-- The loop over pods appends the lines of each section, in order. -/
theorem foldl_formatPod (pods : List Pod) (output : String) :
    pods.foldl formatPod output = output ++ concat (pods.map sectionLines) := by
  induction pods generalizing output with
  | nil => simp [concat]
  | cons pod rest ih =>
    simp only [List.foldl_cons, List.map_cons, concat, ih, formatPod_eq, String.append_assoc]

/-- On a successful result the formatter returns the header for the reported section
count followed by the sections. -/
theorem FormatResultAsText_success (r : QueryResult) (h : r.QueryResult.Success = true) :
    FormatResultAsText r = formatSpec r := by
  simp [FormatResultAsText, h, foldl_formatPod, formatSpec, headerLines, String.append_assoc]

/-- C13: for a result with `success` false the formatter returns exactly
"Error: Wolfram Alpha could not process this query" when the error flag is set and
exactly "No results found" when it is not, whatever the section count and the
sections. -/
theorem FormatResultAsText_failure (r : QueryResult) (h : r.QueryResult.Success = false) :
    (r.QueryResult.Error = true →
      FormatResultAsText r = "Error: Wolfram Alpha could not process this query") ∧
    (r.QueryResult.Error = false → FormatResultAsText r = "No results found") := by
  constructor <;> intro he <;> simp [FormatResultAsText, h, he]

/-- C13 at results that carry sections and a section count although `success` is
false. -/
theorem FormatResultAsText_failure_witness :
    FormatResultAsText ⟨⟨false, true, 2, twoPods.QueryResult.Pods⟩⟩
      = "Error: Wolfram Alpha could not process this query" ∧
    FormatResultAsText ⟨⟨false, false, 7, twoPods.QueryResult.Pods⟩⟩ = "No results found" :=
  ⟨(FormatResultAsText_failure ⟨⟨false, true, 2, twoPods.QueryResult.Pods⟩⟩ rfl).1 rfl,
    (FormatResultAsText_failure ⟨⟨false, false, 7, twoPods.QueryResult.Pods⟩⟩ rfl).2 rfl⟩

/-- C14: for a result with `success` true the formatter returns exactly the header
line with the section count and an empty line, then for every section in order the
banner `=== <title> ===`, for every content block in order its plaintext line if the
plaintext is not empty and its `[Image: <src>]` line if the image source is not
empty, then an empty line. -/
theorem FormatResultAsText_layout (r : QueryResult) (h : r.QueryResult.Success = true) :
    FormatResultAsText r
      = "Wolfram Alpha Result (" ++ toString r.QueryResult.Numpods ++ " sections):" ++ "\n"
        ++ "\n" ++ concat (r.QueryResult.Pods.map sectionLines) ∧
    (∀ s : Pod, sectionLines s
      = "=== " ++ s.Title ++ " ===" ++ "\n" ++ concat (s.Subpods.map blockLines) ++ "\n") ∧
    (∀ b : Subpod, blockLines b
      = (if b.Plaintext = "" then "" else b.Plaintext ++ "\n") ++
        (if b.Image.Src = "" then "" else "[Image: " ++ b.Image.Src ++ "]" ++ "\n")) := by
  refine ⟨?_, fun _ => rfl, fun _ => rfl⟩
  rw [FormatResultAsText_success r h]
  rfl

/-- C14 at a result with two sections, the second with an image. -/
theorem FormatResultAsText_layout_witness :
    FormatResultAsText twoPods
      = "Wolfram Alpha Result (2 sections):\n\n" ++
        ("=== Input ===\n" ++ "2+2\n" ++ "\n") ++
        ("=== Result ===\n" ++ "4\n" ++ "[Image: https://img/4.gif]\n" ++ "\n") :=
  ((FormatResultAsText_layout twoPods rfl).1).trans (by decide)

/-- C19 as stated fails: a successful result that reports three sections and carries
none gets the header "(3 sections)" and no banner; the output is not the header for
the number of sections carried followed by those sections. -/
theorem header_count_counterexample :
    (⟨⟨true, false, 3, []⟩⟩ : QueryResult).QueryResult.Success = true ∧
    (⟨⟨true, false, 3, []⟩⟩ : QueryResult).QueryResult.Pods.length = 0 ∧
    FormatResultAsText ⟨⟨true, false, 3, []⟩⟩ = "Wolfram Alpha Result (3 sections):\n\n" ∧
    FormatResultAsText ⟨⟨true, false, 3, []⟩⟩
      ≠ headerLines ((⟨⟨true, false, 3, []⟩⟩ : QueryResult).QueryResult.Pods.length : Nat)
        ++ concat ((⟨⟨true, false, 3, []⟩⟩ : QueryResult).QueryResult.Pods.map sectionLines) := by
  refine ⟨rfl, rfl, ?_, ?_⟩
  · decide
  · decide

/-- C19 amended: for a result with `success` true the count in the header is the count
the result reports (`Numpods`), the output has one banner per section of `Pods`, and
the two agree whenever the reported count is the number of sections. -/
theorem header_count (r : QueryResult) (h : r.QueryResult.Success = true) :
    FormatResultAsText r
      = headerLines r.QueryResult.Numpods ++ concat (r.QueryResult.Pods.map sectionLines) ∧
    (r.QueryResult.Pods.map sectionLines).length = r.QueryResult.Pods.length ∧
    (r.QueryResult.Numpods = (r.QueryResult.Pods.length : Nat) →
      FormatResultAsText r
        = headerLines (r.QueryResult.Pods.length : Nat)
          ++ concat (r.QueryResult.Pods.map sectionLines)) := by
  have hfmt := FormatResultAsText_success r h
  refine ⟨hfmt, List.length_map _ _, ?_⟩
  intro hn
  rw [hfmt, formatSpec, hn]

/-- C19 amended, at a result whose reported count is its number of sections and at one
that reports three sections and carries none. -/
theorem header_count_witness :
    FormatResultAsText twoPods
      = headerLines 2 ++ concat (twoPods.QueryResult.Pods.map sectionLines) ∧
    FormatResultAsText ⟨⟨true, false, 3, []⟩⟩ = headerLines 3 ++ concat [] :=
  ⟨(header_count twoPods rfl).2.2 rfl, (header_count ⟨⟨true, false, 3, []⟩⟩ rfl).1⟩

/-! ### The shape of every Response -/

/-- The Responses of the tool-call handler: an error without result, or a result
without error. -/
theorem handleToolsCall_shape (p : Protocol) (req : Request) :
    ((p.handleToolsCall req).response.Result = Value.nil ∧
      ∃ code msg, (p.handleToolsCall req).response.Error = some ⟨code, msg⟩ ∧
        (code = -32601 ∨ code = -32602 ∨ code = -32603)) ∨
    ((p.handleToolsCall req).response.Result ≠ Value.nil ∧
      (p.handleToolsCall req).response.Error = none) := by
  unfold Protocol.handleToolsCall
  repeat (first | split | simp)

/-- C11: no Response has both a result and an error; it has neither exactly when the
method is `initialized`; for every other method exactly one of them is set. -/
theorem Handle_result_xor_error (p : Protocol) (req : Request) :
    ¬ ((p.Handle req).response.Result ≠ Value.nil ∧ (p.Handle req).response.Error ≠ none) ∧
    (((p.Handle req).response.Result = Value.nil ∧ (p.Handle req).response.Error = none)
      ↔ req.Method = "initialized") ∧
    (req.Method ≠ "initialized" →
      ((p.Handle req).response.Result ≠ Value.nil ∧ (p.Handle req).response.Error = none) ∨
      ((p.Handle req).response.Result = Value.nil ∧ (p.Handle req).response.Error ≠ none)) := by
  unfold Protocol.Handle
  split
  case h_6 hm =>
    rcases handleToolsCall_shape p req with ⟨hr, code, msg, he, _⟩ | ⟨hr, he⟩
    · simp [hr, he, hm]
    · simp [hr, he, hm]
  all_goals simp_all [Protocol.handleInitialize, Protocol.handleInitialized,
    Protocol.handleResourcesList, Protocol.handleResourcesRead, Protocol.handleToolsList,
    Protocol.handlePing, Protocol.handleServerInfo]

/-- C12: an error carried by a Response of `Handle` has code -32601, -32602 or -32603;
the code is never zero and never -32700. -/
theorem Handle_error_codes (p : Protocol) (req : Request) (e : Error)
    (h : (p.Handle req).response.Error = some e) :
    (e.Code = -32601 ∨ e.Code = -32602 ∨ e.Code = -32603) ∧ e.Code ≠ 0 ∧ e.Code ≠ -32700 := by
  have hcode : e.Code = -32601 ∨ e.Code = -32602 ∨ e.Code = -32603 := by
    unfold Protocol.Handle at h
    split at h
    case h_6 hm =>
      rcases handleToolsCall_shape p req with ⟨_, code, msg, he, hc⟩ | ⟨_, he⟩
      · rw [he] at h
        cases h
        exact hc
      · rw [he] at h
        cases h
    all_goals simp_all [Protocol.handleInitialize, Protocol.handleInitialized,
      Protocol.handleResourcesList, Protocol.handleResourcesRead, Protocol.handleToolsList,
      Protocol.handlePing, Protocol.handleServerInfo]
    all_goals (cases h; simp)
  refine ⟨hcode, ?_, ?_⟩ <;> rcases hcode with hc | hc | hc <;> rw [hc] <;> decide

/-- C12 at the error of an unknown method. -/
theorem Handle_error_codes_witness :
    (noClient.Handle ⟨"nope", none, Value.nil⟩).response.Error
      = some ⟨-32601, "Method not found"⟩ ∧
    (((-32601 : Int) = -32601 ∨ (-32601 : Int) = -32602 ∨ (-32601 : Int) = -32603) ∧
      (-32601 : Int) ≠ 0 ∧ (-32601 : Int) ≠ -32700) :=
  ⟨rfl, Handle_error_codes noClient ⟨"nope", none, Value.nil⟩
    ⟨-32601, "Method not found"⟩ rfl⟩

/-! ### Calls of the query capability -/

/-- The string assertion succeeds exactly on strings. -/
theorem assertString_eq_some (v : Value) (s : String) :
    v.assertString = some s ↔ v = Value.string s := by
  cases v <;> simp [Value.assertString]

/-- The map assertion succeeds exactly on `map[string]interface{}` values. -/
theorem assertMap_eq_some (v : Value) (m : List (String × Value)) :
    v.assertMap = some m ↔ v = Value.map m := by
  cases v <;> simp [Value.assertMap]

/-- Outside `tools/call` no query is made and the client plays no part. -/
theorem Handle_other_methods (p p' : Protocol) (req : Request)
    (hm : req.Method ≠ "tools/call") :
    (p.Handle req).queried = [] ∧ p'.Handle req = p.Handle req := by
  unfold Protocol.Handle
  split <;> first | (exfalso; exact hm (by assumption)) | exact ⟨rfl, rfl⟩

/-- The calls of `Query` made by the tool-call handler. -/
theorem handleToolsCall_calls (p : Protocol) (req : Request) :
    (p.handleToolsCall req).queried.length ≤ 1 ∧
    (∀ q, (p.handleToolsCall req).queried = [q] ↔
      (indexParams req.Params "name" = Value.string "query_wolfram" ∧
        (∃ arguments, indexParams req.Params "arguments" = Value.map arguments ∧
          index arguments "query" = Value.string q) ∧
        p.wolframClient ≠ none)) ∧
    (∀ p' : Protocol, p'.wolframClient.isSome = p.wolframClient.isSome →
      (p.handleToolsCall req).queried = [] → p'.handleToolsCall req = p.handleToolsCall req) := by
  unfold Protocol.handleToolsCall
  rcases hname : (indexParams req.Params "name").assertString with _ | name
  · have hn : ∀ s, indexParams req.Params "name" ≠ Value.string s := by
      intro s hs
      rw [hs] at hname
      simp [Value.assertString] at hname
    simp [hn]
  · rw [assertString_eq_some] at hname
    rcases hargs : (indexParams req.Params "arguments").assertMap with _ | arguments
    · have ha : ∀ m, indexParams req.Params "arguments" ≠ Value.map m := by
        intro m hm
        rw [hm] at hargs
        simp [Value.assertMap] at hargs
      simp [ha]
    · rw [assertMap_eq_some] at hargs
      by_cases hq : name = "query_wolfram"
      · subst hq
        simp only [hname, hargs]
        rcases hquery : (index arguments "query").assertString with _ | query
        · have hne : ∀ s, index arguments "query" ≠ Value.string s := by
            intro s hs
            rw [hs] at hquery
            simp [Value.assertString] at hquery
          simp [hne]
        · rw [assertString_eq_some] at hquery
          rcases hc : p.wolframClient with _ | client
          · simp only [hquery, hc]
            refine ⟨by simp, by simp, ?_⟩
            intro p' hp' _
            have hnone : p'.wolframClient = none := by
              cases h : p'.wolframClient <;> simp_all
            simp only [hnone]
          · simp only [hquery, hc]
            rcases hr : client.Query query with e | r <;> simp [hquery]
      · simp [hname, hargs, hq]

/-- C20: `Handle` calls the query capability at most once; it calls it exactly once,
with `arguments.query` unchanged, exactly when the method is `tools/call`, the name is
the string `query_wolfram`, the arguments are a mapping, `arguments.query` is a string
and a client is configured; when no call is made the outcome is the same for every
dispatcher with the same configuredness, whatever its client would return. -/
theorem Handle_query_calls (p : Protocol) (req : Request) :
    (p.Handle req).queried.length ≤ 1 ∧
    (∀ q, (p.Handle req).queried = [q] ↔
      (req.Method = "tools/call" ∧
        indexParams req.Params "name" = Value.string "query_wolfram" ∧
        (∃ arguments, indexParams req.Params "arguments" = Value.map arguments ∧
          index arguments "query" = Value.string q) ∧
        p.wolframClient ≠ none)) ∧
    (∀ p' : Protocol, p'.wolframClient.isSome = p.wolframClient.isSome →
      (p.Handle req).queried = [] → p'.Handle req = p.Handle req) := by
  by_cases hm : req.Method = "tools/call"
  · rw [Handle_toolsCall p req hm]
    obtain ⟨h1, h2, h3⟩ := handleToolsCall_calls p req
    refine ⟨h1, fun q => ?_, fun p' hp' hq => ?_⟩
    · rw [h2 q]
      simp [hm]
    · rw [Handle_toolsCall p' req hm]
      exact h3 p' hp' hq
  · obtain ⟨h1, _⟩ := Handle_other_methods p p req hm
    refine ⟨by simp [h1], fun q => by simp [h1, hm], fun p' _ _ => ?_⟩
    exact (Handle_other_methods p p' req hm).2

/-! ### The transports -/

/-- The Response of `Handle` carries the ID of the Request (used for the transports). -/
theorem response_ID (p : Protocol) (req : Request) : (p.Handle req).response.ID = req.ID := by
  unfold Protocol.Handle
  split <;> try rfl
  unfold Protocol.handleToolsCall
  repeat (first | rfl | split)

/-- The loop of `ServeStdio` encodes the Responses of the accepted lines, in order. -/
theorem serveLines_eq (p : Protocol) (Unmarshal : String → Except String Request)
    (lines : List String) :
    serveLines p Unmarshal lines
      = (acceptedRequests Unmarshal lines).map fun req => (p.Handle req).response := by
  induction lines with
  | nil => rfl
  | cons line rest ih =>
    unfold acceptedRequests at ih
    unfold serveLines acceptedRequests
    by_cases hb : TrimSpace line = ""
    · simpa [hb, List.filterMap_cons] using ih
    · rcases hu : Unmarshal line with e | req
      · simpa [hb, hu, List.filterMap_cons] using ih
      · simpa [hb, hu, List.filterMap_cons] using ih

/-- A line that is blank or does not parse adds nothing to the accepted Requests. -/
theorem acceptedRequests_skip (Unmarshal : String → Except String Request)
    (before after : List String) (line : String)
    (h : TrimSpace line = "" ∨ ∃ e, Unmarshal line = Except.error e) :
    acceptedRequests Unmarshal (before ++ line :: after)
      = acceptedRequests Unmarshal (before ++ after) := by
  unfold acceptedRequests
  rw [List.filterMap_append, List.filterMap_append, List.filterMap_cons]
  rcases h with hb | ⟨e, he⟩
  · simp [hb]
  · by_cases hb : TrimSpace line = "" <;> simp [hb, he]

/-- C15: when the input is read to its end without a read error, `ServeStdio` writes
exactly the Responses of `Handle` on the lines that are not blank after trimming and
that parse, in input order, and returns no error; the k-th Response carries the id of
the k-th accepted line; a blank or unparseable line leaves the output as it is
without that line. -/
theorem ServeStdio_responses (p : Protocol) (Unmarshal : String → Except String Request)
    (scanner : Scanner) (h : scanner.err = none) :
    p.ServeStdio Unmarshal scanner
      = ((acceptedRequests Unmarshal scanner.lines).map fun req => (p.Handle req).response,
          none) ∧
    (p.ServeStdio Unmarshal scanner).1.map Response.ID
      = (acceptedRequests Unmarshal scanner.lines).map Request.ID ∧
    (∀ (before after : List String) (line : String),
      (TrimSpace line = "" ∨ ∃ e, Unmarshal line = Except.error e) →
      p.ServeStdio Unmarshal ⟨before ++ line :: after, none⟩
        = p.ServeStdio Unmarshal ⟨before ++ after, none⟩) := by
  refine ⟨?_, ?_, ?_⟩
  · simp [Protocol.ServeStdio, serveLines_eq, h]
  · simp [Protocol.ServeStdio, serveLines_eq, response_ID]
  · intro before after line hskip
    simp [Protocol.ServeStdio, serveLines_eq, acceptedRequests_skip Unmarshal before after line hskip]

/-- C15 at the stream of a blank line, a valid request, an unparseable line and
another valid request: exactly two Responses, in order, with the ids of the two
requests. -/
theorem ServeStdio_responses_witness :
    noClient.ServeStdio sampleUnmarshal
        ⟨[" \t", "\x7b\"method\":\"ping\",\"id\":\"a\"\x7d", "not json",
          "\x7b\"method\":\"nope\",\"id\":\"b\"\x7d"], none⟩
      = ([⟨Value.map [("pong", Value.bool true)], none, Value.string "a"⟩,
          ⟨Value.nil, some ⟨-32601, "Method not found"⟩, Value.string "b"⟩], none) :=
  (ServeStdio_responses noClient sampleUnmarshal
    ⟨[" \t", "\x7b\"method\":\"ping\",\"id\":\"a\"\x7d", "not json",
      "\x7b\"method\":\"nope\",\"id\":\"b\"\x7d"], none⟩ rfl).1.trans rfl

/-- C16: the handler answers a request whose method is not POST with status 405, no
body and no call of `Handle`; a POST whose body does not decode with status 400 and
the Response of error -32700 "Parse error" without result and without id; a POST
whose body decodes with status 200 and the Response of `Handle`, with an error or
not. -/
theorem ServeHTTP_handler (p : Protocol) (Decode : String → Except String Request)
    (r : HTTPRequest) :
    (r.Method ≠ "POST" → p.ServeHTTP Decode r = ⟨405, none, none, []⟩) ∧
    (r.Method = "POST" → ∀ e, Decode r.Body = Except.error e →
      p.ServeHTTP Decode r
        = ⟨400, none, some ⟨Value.nil, some ⟨-32700, "Parse error"⟩, Value.nil⟩, []⟩) ∧
    (r.Method = "POST" → ∀ req, Decode r.Body = Except.ok req →
      p.ServeHTTP Decode r
        = ⟨200, some "application/json", some (p.Handle req).response, [req]⟩) := by
  refine ⟨?_, ?_, ?_⟩
  · intro hm
    simp [Protocol.ServeHTTP, hm]
  · intro hm e he
    simp [Protocol.ServeHTTP, hm, he]
  · intro hm req he
    simp [Protocol.ServeHTTP, hm, he]

/-- C16 at a GET, at a POST with an unparseable body, and at a POST whose request
gets an error Response. -/
theorem ServeHTTP_handler_witness :
    noClient.ServeHTTP sampleUnmarshal ⟨"GET", "\x7b\"method\":\"ping\",\"id\":\"a\"\x7d"⟩
      = ⟨405, none, none, []⟩ ∧
    noClient.ServeHTTP sampleUnmarshal ⟨"POST", "not json"⟩
      = ⟨400, none, some ⟨Value.nil, some ⟨-32700, "Parse error"⟩, Value.nil⟩, []⟩ ∧
    noClient.ServeHTTP sampleUnmarshal ⟨"POST", "\x7b\"method\":\"nope\",\"id\":\"b\"\x7d"⟩
      = ⟨200, some "application/json",
          some ⟨Value.nil, some ⟨-32601, "Method not found"⟩, Value.string "b"⟩,
          [⟨"nope", none, Value.string "b"⟩]⟩ :=
  ⟨(ServeHTTP_handler noClient sampleUnmarshal
      ⟨"GET", "\x7b\"method\":\"ping\",\"id\":\"a\"\x7d"⟩).1 (by decide),
    (ServeHTTP_handler noClient sampleUnmarshal ⟨"POST", "not json"⟩).2.1 rfl
      "invalid character" rfl,
    ((ServeHTTP_handler noClient sampleUnmarshal
      ⟨"POST", "\x7b\"method\":\"nope\",\"id\":\"b\"\x7d"⟩).2.2 rfl
      ⟨"nope", none, Value.string "b"⟩ rfl).trans rfl⟩

/-! ### The choice of the transport -/

/-- C18 fails on the code: in an environment where `MCP_WOLFRAM_PORT` is unset and
`MCP_PORT` is "8080", the port resolution falls back to `MCP_PORT` and the command
serves over HTTP on port 8080, not over stdio. -/
theorem runMCPWolfram_falls_back_to_MCP_PORT :
    onlyMCPPort "MCP_WOLFRAM_PORT" = "" ∧
    getEnv onlyMCPPort ["MCP_WOLFRAM_PORT", "MCP_PORT"] = "8080" ∧
    runMCPWolfram onlyMCPPort = Except.ok (Transport.http "8080") ∧
    runMCPWolfram onlyMCPPort ≠ Except.ok Transport.stdio := by
  refine ⟨by decide, by decide, ?_, ?_⟩
  · rfl
  · intro h
    have h2 : runMCPWolfram onlyMCPPort = Except.ok (Transport.http "8080") := rfl
    rw [h2] at h
    cases h


/-! ### The JSON round trip of a Response -/

/-- No list of code points is below itself. -/
theorem ltCodes_irrefl (a : List Nat) : ltCodes a a = false := by
  induction a with
  | nil => rfl
  | cons x xs ih => simp [ltCodes, ih]

/-- The order on lists of code points is asymmetric. -/
theorem ltCodes_asymm (a b : List Nat) (h : ltCodes a b = true) : ltCodes b a = false := by
  induction a generalizing b with
  | nil => cases b <;> simp_all [ltCodes]
  | cons x xs ih =>
    cases b with
    | nil => simp [ltCodes] at h
    | cons y ys =>
      simp only [ltCodes, Bool.or_eq_true, Bool.and_eq_true, decide_eq_true_eq, beq_iff_eq] at h
      simp only [ltCodes, Bool.or_eq_false_iff, Bool.and_eq_false_imp, decide_eq_false_iff_not,
        beq_iff_eq]
      rcases h with h | ⟨h1, h2⟩
      · exact ⟨by omega, fun hyx => by omega⟩
      · exact ⟨by omega, fun _ => ih ys h2⟩

/-- A key below another is not above it. -/
theorem keyLt_asymm (a b : String) (h : keyLt a b = true) : keyLt b a = false :=
  ltCodes_asymm _ _ h

/-- A key below another differs from it. -/
theorem keyLt_ne (a b : String) (h : keyLt a b = true) : a ≠ b := by
  intro hab
  subst hab
  simp [keyLt, ltCodes_irrefl] at h

/-- Members already in strictly ascending key order are written as they are. -/
theorem sortedMembers_of_sorted {α : Type} (kvs : List (String × α))
    (h : sortedKeys (kvs.map Prod.fst)) : sortedMembers kvs = kvs := by
  induction kvs with
  | nil => rfl
  | cons kv rest ih =>
    simp only [sortedKeys, List.map_cons, List.pairwise_cons] at h
    have hrest : sortedMembers rest = rest := ih h.2
    simp only [sortedMembers, List.foldr_cons] at hrest ⊢
    rw [hrest]
    cases rest with
    | nil => rfl
    | cons kv2 rest2 =>
      have hlt : keyLt kv.1 kv2.1 = true := h.1 kv2.1 (by simp)
      simp [insertMember, hlt]

/-- A key above all keys of a list of members is inserted at its end. -/
theorem insertMember_last {α : Type} (key : String) (v : α) (acc : List (String × α))
    (h : ∀ kv ∈ acc, keyLt kv.1 key = true) : insertMember key v acc = acc ++ [(key, v)] := by
  induction acc with
  | nil => rfl
  | cons kv rest ih =>
    have hlt : keyLt kv.1 key = true := h kv (by simp)
    have h1 : keyLt key kv.1 = false := keyLt_asymm _ _ hlt
    have h2 : key ≠ kv.1 := fun he => keyLt_ne _ _ hlt he.symm
    have hrest := ih (fun kv2 hkv2 => h kv2 (by simp [hkv2]))
    obtain ⟨k, w⟩ := kv
    simp only [insertMember, h1, Bool.false_eq_true, if_false, h2, List.cons_append]
    simp only at hrest
    rw [hrest]

/-- Reading members in strictly ascending key order after smaller keys appends them. -/
theorem foldl_insertMember {α : Type} (members acc : List (String × α))
    (hacc : ∀ a ∈ acc, ∀ b ∈ members, keyLt a.1 b.1 = true)
    (h : sortedKeys (members.map Prod.fst)) :
    members.foldl (fun acc kv => insertMember kv.1 kv.2 acc) acc = acc ++ members := by
  induction members generalizing acc with
  | nil => simp
  | cons kv rest ih =>
    simp only [sortedKeys, List.map_cons, List.pairwise_cons] at h
    simp only [List.foldl_cons]
    rw [insertMember_last kv.1 kv.2 acc (fun a ha => hacc a ha kv (by simp))]
    rw [ih (acc ++ [(kv.1, kv.2)]) ?_ h.2]
    · simp
    · intro a ha b hb
      rcases List.mem_append.mp ha with ha | ha
      · exact hacc a ha b (by simp [hb])
      · simp only [List.mem_singleton] at ha
        subst ha
        exact h.1 b.1 (List.mem_map_of_mem Prod.fst hb)

/-- Members in strictly ascending key order are read as they are. -/
theorem lastWins_of_sorted {α : Type} (members : List (String × α))
    (h : sortedKeys (members.map Prod.fst)) : lastWins members = members := by
  have := foldl_insertMember members [] (by simp) h
  simpa [lastWins] using this

/-- Reading the members of an object keeps their keys. -/
theorem toValueMembers_keys (m : List (String × JSON)) :
    (toValueMembers m).map Prod.fst = m.map Prod.fst := by
  induction m with
  | nil => rfl
  | cons kv rest ih =>
    obtain ⟨k, v⟩ := kv
    simp [toValueMembers, ih]

mutual
/-- A decoded value is written, and read back from its document as it is. -/
theorem Value.toValue_toJSON : ∀ v : Value, v.Decoded →
    ∃ j, v.toJSON = Except.ok j ∧ j.toValue = v
  | Value.nil, _ => ⟨JSON.null, by simp [Value.toJSON, JSON.toValue]⟩
  | Value.bool b, _ => ⟨JSON.bool b, by simp [Value.toJSON, JSON.toValue]⟩
  | Value.number x, h => by
    simp only [Value.Decoded] at h
    exact ⟨JSON.number x (intLiteral x), by simp [Value.toJSON, JSON.toValue, h]⟩
  | Value.string s, _ => ⟨JSON.string s, by simp [Value.toJSON, JSON.toValue]⟩
  | Value.slice xs, h => by
    simp only [Value.Decoded] at h
    obtain ⟨js, h1, h2⟩ := toValueList_toJSONList xs h
    exact ⟨JSON.array js, by simp [Value.toJSON, JSON.toValue, h1, h2]⟩
  | Value.map m, h => by
    simp only [Value.Decoded] at h
    obtain ⟨ms, h1, h2, h3⟩ := toValueMembers_toJSONMembers m [] h.1 h.2 (by simp)
    have hk : sortedKeys (ms.map Prod.fst) := by
      rw [h2]
      exact h.2
    refine ⟨JSON.object (sortedMembers ms), by simp [Value.toJSON, h1], ?_⟩
    simp only [JSON.toValue, sortedMembers_of_sorted _ hk, h3, lastWins_of_sorted m h.2]
  | Value.boolMap _, h => by simp [Value.Decoded] at h
  | Value.mapSlice _, h => by simp [Value.Decoded] at h
  | Value.stringSlice _, h => by simp [Value.Decoded] at h
/-- Decoded elements are written, and read back as they are. -/
theorem toValueList_toJSONList : ∀ xs : List Value, DecodedList xs →
    ∃ js, toJSONList xs = Except.ok js ∧ toValueList js = xs
  | [], _ => ⟨[], by simp [toJSONList, toValueList]⟩
  | v :: vs, h => by
    simp only [DecodedList] at h
    obtain ⟨j, h1, h2⟩ := Value.toValue_toJSON v h.1
    obtain ⟨js, g1, g2⟩ := toValueList_toJSONList vs h.2
    exact ⟨j :: js, by simp [toJSONList, toValueList, h1, h2, g1, g2]⟩
/-- Decoded bindings in strictly ascending key order, none of them bound earlier, are
written with their keys, and read back as they are. -/
theorem toValueMembers_toJSONMembers : ∀ (m : List (String × Value)) (seen : List String),
    DecodedMembers m → sortedKeys (m.map Prod.fst) → (∀ kv ∈ m, kv.1 ∉ seen) →
    ∃ ms, toJSONMembers seen m = Except.ok ms ∧ ms.map Prod.fst = m.map Prod.fst ∧
      toValueMembers ms = m
  | [], _, _, _, _ => ⟨[], by simp [toJSONMembers, toValueMembers]⟩
  | (k, v) :: rest, seen, h, hs, hseen => by
    simp only [DecodedMembers] at h
    simp only [sortedKeys, List.map_cons, List.pairwise_cons] at hs
    have hk : k ∉ seen := hseen (k, v) (by simp)
    obtain ⟨j, h1, h2⟩ := Value.toValue_toJSON v h.1
    obtain ⟨ms, g1, g2, g3⟩ := toValueMembers_toJSONMembers rest (k :: seen) h.2 hs.2
      (by
        intro kv hkv
        simp only [List.mem_cons, not_or]
        exact ⟨fun he => keyLt_ne k kv.1 (hs.1 kv.1 (List.mem_map_of_mem Prod.fst hkv)) he.symm,
          hseen kv (by simp [hkv])⟩)
    exact ⟨(k, j) :: ms, by simp [toJSONMembers, toValueMembers, hk, h1, h2, g1, g2, g3]⟩
end

mutual
/-- A supported value is written. -/
theorem Value.toJSON_ok : ∀ v : Value, v.Supported → ∃ j, v.toJSON = Except.ok j
  | Value.nil, _ => ⟨JSON.null, by simp [Value.toJSON]⟩
  | Value.bool b, _ => ⟨JSON.bool b, by simp [Value.toJSON]⟩
  | Value.number x, h => by
    simp only [Value.Supported] at h
    exact ⟨JSON.number x (intLiteral x), by simp [Value.toJSON, h]⟩
  | Value.string s, _ => ⟨JSON.string s, by simp [Value.toJSON]⟩
  | Value.slice xs, h => by
    simp only [Value.Supported] at h
    obtain ⟨js, h1⟩ := toJSONList_ok xs h
    exact ⟨JSON.array js, by simp [Value.toJSON, h1]⟩
  | Value.map m, h => by
    simp only [Value.Supported] at h
    obtain ⟨ms, h1⟩ := toJSONMembers_ok m [] h
    exact ⟨JSON.object (sortedMembers ms), by simp [Value.toJSON, h1]⟩
  | Value.boolMap m, _ =>
    ⟨JSON.object (sortedMembers (m.map fun kv => (kv.1, JSON.bool kv.2))), by simp [Value.toJSON]⟩
  | Value.mapSlice xs, h => by
    simp only [Value.Supported] at h
    obtain ⟨js, h1⟩ := toJSONMaps_ok xs h
    exact ⟨JSON.array js, by simp [Value.toJSON, h1]⟩
  | Value.stringSlice xs, _ => ⟨JSON.array (xs.map JSON.string), by simp [Value.toJSON]⟩
/-- Supported elements are written. -/
theorem toJSONList_ok : ∀ xs : List Value, SupportedList xs →
    ∃ js, toJSONList xs = Except.ok js
  | [], _ => ⟨[], by simp [toJSONList]⟩
  | v :: vs, h => by
    simp only [SupportedList] at h
    obtain ⟨j, h1⟩ := Value.toJSON_ok v h.1
    obtain ⟨js, g1⟩ := toJSONList_ok vs h.2
    exact ⟨j :: js, by simp [toJSONList, h1, g1]⟩
/-- Supported bindings are written. -/
theorem toJSONMembers_ok : ∀ (m : List (String × Value)) (seen : List String),
    SupportedMembers m → ∃ ms, toJSONMembers seen m = Except.ok ms
  | [], _, _ => ⟨[], by simp [toJSONMembers]⟩
  | (k, v) :: rest, seen, h => by
    simp only [SupportedMembers] at h
    obtain ⟨j, h1⟩ := Value.toJSON_ok v h.1
    obtain ⟨ms, g1⟩ := toJSONMembers_ok rest (k :: seen) h.2
    obtain ⟨ms2, g2⟩ := toJSONMembers_ok rest seen h.2
    by_cases hk : k ∈ seen
    · exact ⟨ms2, by simp [toJSONMembers, hk, g2]⟩
    · exact ⟨(k, j) :: ms, by simp [toJSONMembers, hk, h1, g1]⟩
/-- Supported maps are written. -/
theorem toJSONMaps_ok : ∀ xs : List (List (String × Value)), SupportedMaps xs →
    ∃ js, toJSONMaps xs = Except.ok js
  | [], _ => ⟨[], by simp [toJSONMaps]⟩
  | m :: ms, h => by
    simp only [SupportedMaps] at h
    obtain ⟨members, h1⟩ := toJSONMembers_ok m [] h.1
    obtain ⟨js, g1⟩ := toJSONMaps_ok ms h.2
    exact ⟨JSON.object (sortedMembers members) :: js, by simp [toJSONMaps, h1, g1]⟩
end

/-- Only the nil interface is written as a document that reads back as nil. -/
theorem toValue_eq_nil_of_toJSON (v : Value) (j : JSON) (h : v.toJSON = Except.ok j) :
    j.toValue = Value.nil ↔ v = Value.nil := by
  cases v <;> simp only [Value.toJSON] at h
  all_goals (first
    | (cases h; simp [JSON.toValue])
    | (split at h <;> first | (cases h; simp [JSON.toValue]) | cases h))

/-- A nil field tagged `omitempty` is left out. -/
theorem omitempty_nil (name : String) : omitempty name Value.nil = Except.ok [] := rfl

/-- A field tagged `omitempty` that holds a value is written with that value. -/
theorem omitempty_of_ne_nil (name : String) (v : Value) (j : JSON) (hv : v ≠ Value.nil)
    (h : v.toJSON = Except.ok j) : omitempty name v = Except.ok [(name, j)] := by
  cases v <;> simp_all [omitempty]

/-- When the result and the id are written, the Response read back holds what the
two documents read as, and the error as it was. -/
theorem roundTrip_eq (r : Response) (jr ji : JSON)
    (hcode : ∀ e, r.Error = some e → -(2 : Int) ^ 63 ≤ e.Code ∧ e.Code < (2 : Int) ^ 63)
    (hr : r.Result.toJSON = Except.ok jr) (hi : r.ID.toJSON = Except.ok ji) :
    roundTrip r = Except.ok ⟨jr.toValue, r.Error, ji.toValue⟩ := by
  obtain ⟨result, error, id⟩ := r
  simp only at hr hi
  have hres : ∃ ms, omitempty "result" result = Except.ok ms ∧
      (ms = [] ∧ jr.toValue = Value.nil ∨ ms = [("result", jr)]) := by
    by_cases hv : result = Value.nil
    · subst hv
      simp only [Value.toJSON, Except.ok.injEq] at hr
      subst hr
      exact ⟨[], rfl, Or.inl ⟨rfl, by simp [JSON.toValue]⟩⟩
    · exact ⟨_, omitempty_of_ne_nil _ _ _ hv hr, Or.inr rfl⟩
  have hidm : ∃ ms, omitempty "id" id = Except.ok ms ∧
      (ms = [] ∧ ji.toValue = Value.nil ∨ ms = [("id", ji)]) := by
    by_cases hv : id = Value.nil
    · subst hv
      simp only [Value.toJSON, Except.ok.injEq] at hi
      subst hi
      exact ⟨[], rfl, Or.inl ⟨rfl, by simp [JSON.toValue]⟩⟩
    · exact ⟨_, omitempty_of_ne_nil _ _ _ hv hi, Or.inr rfl⟩
  obtain ⟨mr, hmr, hmr2⟩ := hres
  obtain ⟨mi, hmi, hmi2⟩ := hidm
  cases error with
  | none =>
    rcases hmr2 with ⟨h1, h2⟩ | h1 <;> rcases hmi2 with ⟨g1, g2⟩ | g1 <;>
      simp [roundTrip, encodeResponse, hmr, hmi, h1, g1, decodeResponse,
        decodeResponseMembers, fieldOf, *]
  | some e =>
    have hc := hcode e rfl
    norm_num at hc
    rcases hmr2 with ⟨h1, h2⟩ | h1 <;> rcases hmi2 with ⟨g1, g2⟩ | g1 <;>
      simp [roundTrip, encodeResponse, hmr, hmi, h1, g1, decodeResponse,
        decodeResponseMembers, fieldOf, decodeErrorField, decodeErrorMembers, decodeInt,
        decodeString, hc, *]

/-- The results the handlers build hold no number, so `json.Marshal` supports them. -/
theorem Handle_result_supported (p : Protocol) (req : Request) :
    (p.Handle req).response.Result.Supported := by
  unfold Protocol.Handle
  split
  case h_6 hm =>
    unfold Protocol.handleToolsCall
    repeat (first
      | split
      | simp [Value.Supported, SupportedMembers, SupportedMaps, SupportedList])
  all_goals simp [Protocol.handleInitialize, Protocol.handleInitialized,
    Protocol.handleResourcesList, Protocol.handleResourcesRead, Protocol.handleToolsList,
    Protocol.handlePing, Protocol.handleServerInfo, Value.Supported, SupportedMembers,
    SupportedMaps, SupportedList]

/-- The error codes of `Handle` fit a Go `int`. -/
theorem Handle_code_range (p : Protocol) (req : Request) (e : Error)
    (h : (p.Handle req).response.Error = some e) :
    -(2 : Int) ^ 63 ≤ e.Code ∧ e.Code < (2 : Int) ^ 63 := by
  have hcode : e.Code = -32601 ∨ e.Code = -32602 ∨ e.Code = -32603 := by
    unfold Protocol.Handle at h
    split at h
    case h_6 hm =>
      rcases handleToolsCall_shape p req with ⟨_, code, msg, he, hc⟩ | ⟨_, he⟩
      · rw [he] at h
        cases h
        exact hc
      · rw [he] at h
        cases h
    all_goals simp_all [Protocol.handleInitialize, Protocol.handleInitialized,
      Protocol.handleResourcesList, Protocol.handleResourcesRead, Protocol.handleToolsList,
      Protocol.handlePing, Protocol.handleServerInfo]
    all_goals (cases h; simp)
  rcases hcode with hc | hc | hc <;> rw [hc] <;> decide

/-- A Response whose id is a NaN or infinite number is not written at all. -/
theorem roundTrip_non_finite_id (x : Float) (h : x.isFinite = false) :
    roundTrip ⟨Value.nil, none, Value.number x⟩ = Except.error "json: unsupported value" := by
  simp [roundTrip, encodeResponse, omitempty, Value.toJSON, h]

/-- C17 as stated fails: a Response whose id is a `map[string]bool` is read back with a
`map[string]interface{}` as id, which is another value. -/
theorem Response_round_trip_counterexample :
    roundTrip ⟨Value.nil, none, Value.boolMap [("a", true)]⟩
      = Except.ok ⟨Value.nil, none, Value.map [("a", Value.bool true)]⟩ ∧
    Value.map [("a", Value.bool true)] ≠ Value.boolMap [("a", true)] :=
  ⟨rfl, fun h => Value.noConfusion h⟩

/-- C17 amended: a Response whose error code fits an `int`, whose result holds only
finite numbers and whose id is a value as JSON decoding yields it is written by
`json.Marshal` with `result`, `error` and `id` each left out when nil, and read back
with the same error (code and message), with a result exactly when it had one, and
with the same id. In particular the Response of `Handle` on a Request with a decoded
id is written and read back so, with the id of the Request. -/
theorem Response_round_trip (r : Response) (p : Protocol) (req : Request)
    (hcode : ∀ e, r.Error = some e → -(2 : Int) ^ 63 ≤ e.Code ∧ e.Code < (2 : Int) ^ 63)
    (hres : r.Result.Supported) (hid : r.ID.Decoded) (hreq : req.ID.Decoded) :
    (∃ back : Response, roundTrip r = Except.ok back ∧
      back.Error = r.Error ∧
      (back.Result = Value.nil ↔ r.Result = Value.nil) ∧
      back.ID = r.ID) ∧
    (∃ back : Response, roundTrip (p.Handle req).response = Except.ok back ∧
      back.Error = (p.Handle req).response.Error ∧
      (back.Result = Value.nil ↔ (p.Handle req).response.Result = Value.nil) ∧
      back.ID = req.ID) := by
  constructor
  · obtain ⟨jr, hjr⟩ := Value.toJSON_ok r.Result hres
    obtain ⟨ji, hji, hback⟩ := Value.toValue_toJSON r.ID hid
    exact ⟨⟨jr.toValue, r.Error, ji.toValue⟩, roundTrip_eq r jr ji hcode hjr hji, rfl,
      toValue_eq_nil_of_toJSON _ _ hjr, hback⟩
  · obtain ⟨jr, hjr⟩ := Value.toJSON_ok _ (Handle_result_supported p req)
    have hid2 : (p.Handle req).response.ID.Decoded := by
      rw [response_ID]
      exact hreq
    obtain ⟨ji, hji, hback⟩ := Value.toValue_toJSON _ hid2
    refine ⟨⟨jr.toValue, (p.Handle req).response.Error, ji.toValue⟩,
      roundTrip_eq _ jr ji (Handle_code_range p req) hjr hji, rfl,
      toValue_eq_nil_of_toJSON _ _ hjr, ?_⟩
    show ji.toValue = req.ID
    rw [hback, response_ID]

/-- C17 amended, at the Response of an unknown method with id `false`, and at the
Response of `ping` with the empty string as id. -/
theorem Response_round_trip_witness :
    (∃ back : Response,
      roundTrip ⟨Value.nil, some ⟨-32601, "Method not found"⟩, Value.bool false⟩
        = Except.ok back ∧
      back.Error = some ⟨-32601, "Method not found"⟩ ∧ back.Result = Value.nil ∧
      back.ID = Value.bool false) ∧
    (∃ back : Response,
      roundTrip (noClient.Handle (pingRequest "")).response = Except.ok back ∧
      back.Error = none ∧ back.Result ≠ Value.nil ∧ back.ID = Value.string "") := by
  have hw := Response_round_trip
    ⟨Value.nil, some ⟨-32601, "Method not found"⟩, Value.bool false⟩ noClient (pingRequest "")
    (fun e he => by
      have h : some (⟨-32601, "Method not found"⟩ : Error) = some e := he
      cases h
      decide)
    (by simp [Value.Supported]) (by simp [Value.Decoded])
    (by simp [pingRequest, Value.Decoded])
  obtain ⟨⟨back, h1, h2, h3, h4⟩, ⟨back2, g1, g2, g3, g4⟩⟩ := hw
  refine ⟨⟨back, h1, h2, h3.mpr rfl, h4⟩, ⟨back2, g1, g2, ?_, g4⟩⟩
  intro hnil
  have h := g3.mp hnil
  cases h

end MCP
